import Mathlib

/-!
# OpenVINO execution provider interface: stateful requests

A shallow embedding of `onnxruntime/core/providers/openvino/ov_interface.cc`:
`OVCore::CompileModel`, `OVExeNetwork::CreateInferRequest`,
`OVInferRequest::SetTensor`, `RewindKVCache`, `StartAsync` and `Infer`.

The OpenVINO runtime objects the file drives (`ov::Tensor`, `ov::VariableState`,
`ov::InferRequest`, `ov::Core::compile_model`) are external to the repository.
They are represented by plain data: a tensor is an element type, a shape and its
elements in row-major order; an engine request is its named tensor slots, its
variable states and the tensors it received at its last submission.  A C++
exception (rethrown by `ORT_THROW`) or an undefined access is the result `none`.
-/

namespace onnxruntime
namespace openvino_ep

/-! ## Tensors -/

/-- Element types of `ov::element` that occur in the file or in KV states. -/
inductive ElementType where
  | i32
  | i64
  | f16
  | f32
deriving DecidableEq, Repr

/-- An `ov::Tensor`: element type, shape and the elements in row-major order
(an element is kept as the integer value of its bits). -/
structure Tensor where
  element_type : ElementType
  shape : List Nat
  data : List Int
deriving DecidableEq, Repr

namespace Tensor

/-- Number of elements, `ov::Tensor::get_size`: the product of the shape. -/
def get_size (t : Tensor) : Nat := t.shape.prod

/-- The typed pointer `data<int64_t>()`: the runtime throws when the element
type of the tensor is not `i64`. -/
def data_i64 (t : Tensor) : Option (List Int) :=
  if t.element_type = ElementType.i64 then some t.data else none

/-- The loop `for (i = 0; i < get_size(); i++) push_back(pData[i])` reads the
first `get_size` elements of the buffer. -/
def readAll (t : Tensor) (pData : List Int) : List Int :=
  (List.range t.get_size).map (fun i => pData.getD i 0)

/-- A tensor holds as many elements as its shape says. -/
def WellFormed (t : Tensor) : Prop := t.data.length = t.shape.prod

instance (t : Tensor) : Decidable t.WellFormed :=
  inferInstanceAs (Decidable (t.data.length = t.shape.prod))

end Tensor

/-- Row-major offset of a coordinate in a tensor of the given shape. -/
def offset : List Nat → List Nat → Nat
  | _ :: ds, c :: cs => c * ds.prod + offset ds cs
  | _, _ => 0

/-- All coordinates below `shape`, in row-major order. -/
def coords : List Nat → List (List Nat)
  | [] => [[]]
  | d :: ds => (List.range d).flatMap (fun i => (coords ds).map (fun c => i :: c))

/-- A coordinate lies below a shape, axis by axis. -/
def Below : List Nat → List Nat → Prop
  | [], [] => True
  | c :: cs, d :: ds => c < d ∧ Below cs ds
  | _, _ => False

/-- The element of a tensor at a coordinate. -/
def Tensor.elem (t : Tensor) (c : List Nat) : Option Int :=
  t.data[offset t.shape c]?

/-- The region-of-interest view `ov::Tensor(old, begin = 0, end = shape)` followed
by `copy_to` a new tensor of that shape: every coordinate below `shape` receives
the element of `old` at the same coordinate. -/
def roiCopy (old : Tensor) (shape : List Nat) : Tensor :=
  { element_type := old.element_type
    shape := shape
    data := (coords shape).map (fun c => old.data.getD (offset old.shape c) 0) }

/-- `ov::Tensor(type, shape)` followed by a `memcpy` of `src` to its start.  The
copy stays inside the buffer only when `src` is not longer than the tensor;
elements past the copy are unspecified in C++ and shown as `0`. -/
def allocAndCopy (ty : ElementType) (shape : List Nat) (src : List Int) : Option Tensor :=
  if src.length ≤ shape.prod then
    some { element_type := ty, shape := shape,
           data := src ++ List.replicate (shape.prod - src.length) 0 }
  else none

/-! ## The engine request -/

/-- An `ov::VariableState`: the value `reset` restores, and the current value. -/
structure VariableState where
  name : String
  init : Tensor
  state : Tensor
deriving DecidableEq, Repr

/-- Named tensor slots of a request; a name is a port of the compiled model
exactly when it has an entry. -/
abbrev Slots := List (String × Tensor)

/-- Tensor in a slot (`none`: no such port). -/
def Slots.find : Slots → String → Option Tensor
  | [], _ => none
  | (k, v) :: rest, name => if k = name then some v else Slots.find rest name

/-- Replace the tensor in a slot (`none`: no such port). -/
def Slots.replace : Slots → String → Tensor → Option Slots
  | [], _, _ => none
  | (k, v) :: rest, name, t =>
    if k = name then some ((k, t) :: rest)
    else (Slots.replace rest name t).map (fun r => (k, v) :: r)

/-- An `ov::InferRequest`. -/
structure InferRequest where
  tensors : Slots
  states : List VariableState
  submitted : Slots
deriving DecidableEq, Repr

namespace InferRequest

/-- Runtime `get_tensor`: throws on an unknown name. -/
def get_tensor (q : InferRequest) (name : String) : Option Tensor :=
  q.tensors.find name

/-- Runtime `set_tensor`: throws on an unknown name.  (The ports of the stateful
model have dynamic shapes; a check of the tensor against the port is not
represented.) -/
def set_tensor (q : InferRequest) (name : String) (t : Tensor) : Option InferRequest :=
  (q.tensors.replace name t).map (fun ts => { q with tensors := ts })

/-- Runtime `reset_state`: every variable state goes back to its initial value. -/
def reset_state (q : InferRequest) : InferRequest :=
  { q with states := q.states.map (fun st => { st with state := st.init }) }

/-- Runtime `start_async` / `infer`: the engine receives the tensors now in the
slots, and the forward pass `fwd` of the compiled model updates the states. -/
def run (fwd : Slots → List VariableState → List VariableState) (q : InferRequest) :
    InferRequest :=
  { q with submitted := q.tensors, states := fwd q.tensors q.states }

end InferRequest

/-! ## Compilation -/

/-- An `ov::Any` of a configuration map: a number, a string or a nested map. -/
inductive Any where
  | num (v : Int)
  | str (s : String)
  | map (m : List (String × Any))

/-- An `ov::AnyMap`. -/
abbrev AnyMap := List (String × Any)

/-- Value under a key. -/
def AnyMap.find : AnyMap → String → Option Any
  | [], _ => none
  | (k, v) :: rest, key => if k = key then some v else AnyMap.find rest key

/-- The map without a key. -/
def AnyMap.erase : AnyMap → String → AnyMap
  | [], _ => []
  | (k, v) :: rest, key =>
    if k = key then AnyMap.erase rest key else (k, v) :: AnyMap.erase rest key

/-- The keys of a map. -/
def AnyMap.keys (m : AnyMap) : List String := m.map Prod.fst

/-- `std::string::find` from position 0: the first position where `pat` occurs,
`none` for `npos`. -/
def findFrom (pat : List Char) : List Char → Nat → Option Nat
  | [], pos => if pat = [] then some pos else none
  | c :: cs, pos =>
    if pat.isPrefixOf (c :: cs) = true then some pos else findFrom pat cs (pos + 1)

/-- The test `s.find(pat) != std::string::npos`. -/
def contains (s pat : String) : Bool := (findFrom pat.data s.data 0).isSome

/-- Result of `get_kv_axes_pos`. -/
structure KVAxesPosition where
  batch : Nat
  seq_len : Nat
deriving DecidableEq, Repr

/-- The local `KVDesc` of `CompileModel` (two `uint32_t` fields). -/
structure KVDesc where
  max_prompt_len : Nat
  min_response_len : Nat
deriving DecidableEq, Repr

/-- Modelled from the spec: `pop_int_and_cast`, declared in
`ov_stateful_patch_utils.h` and absent from the sources.  It extracts an integer
override and consumes it: the key is removed from the map it is read from.  An
absent key gives no value and leaves the map as it is; a value that is not a
number is an error.  The value is cast to the 32-bit unsigned field. -/
def pop_int_and_cast (config : AnyMap) (key : String) : Option (Option Nat × AnyMap) :=
  match config.find key with
  | none => some (none, config)
  | some (Any.num v) => some (some (v % 2 ^ 32).toNat, config.erase key)
  | some _ => none

/-- Modelled from the spec: `update_config`, declared in
`ov_stateful_patch_utils.h` and absent from the sources.  It puts one option into
the map under construction. -/
def update_config (config : AnyMap) (pair : String × Any) : AnyMap :=
  config.erase pair.1 ++ [pair]

/-- What `core.compile_model(network, hw_target, config)` received. -/
structure CompiledModel where
  device : String
  config : AnyMap

/-- The wrapper `OVExeNetwork(obj, hw_target)`. -/
structure OVExeNetwork where
  obj : CompiledModel
  device : String

/-- Outcome of `CompileModel`: the returned network, the by-reference argument
`device_config` after the call, and the local `kv_desc` when the branch for the
fixed-shape accelerator was taken. -/
structure CompileOutcome where
  exe : OVExeNetwork
  device_config : AnyMap
  kv_desc : Option KVDesc

/-- `OVCore::CompileModel(std::shared_ptr<OVNetwork>&, ...)`, the branch under
`if (true)`.
* `update_npu_config` stands for the function of that name of
  `ov_stateful_patch_utils.h`, absent from the sources: from the map under
  construction, the axes and the descriptor it gives the map with the options of
  the accelerator.
* `kv_axes` is the outcome of the graph stage (`patch_stateful_decoder`,
  `apply_slice_before_matmul_transformation`, `get_kv_axes_pos`), `none` when it
  throws. -/
def CompileModel (update_npu_config : AnyMap → KVAxesPosition → KVDesc → AnyMap)
    (kv_axes : Option KVAxesPosition) (hw_target : String) (device_config : AnyMap) :
    Option CompileOutcome :=
  let config : AnyMap := []
  match kv_axes with
  | none => none
  | some kv_pos =>
    if contains hw_target "NPU" = true then
      match pop_int_and_cast device_config "MAX_PROMPT_LEN" with
      | none => none
      | some (max_prompt_len, device_config) =>
        match pop_int_and_cast device_config "MIN_RESPONSE_LEN" with
        | none => none
        | some (min_response_len, device_config) =>
          let kv_desc : KVDesc :=
            { max_prompt_len := max_prompt_len.getD 1024
              min_response_len := min_response_len.getD 128 }
          let config := update_npu_config config kv_pos kv_desc
          let config := update_config config
            ("++NPUW_LLM_PREFILL_CONFIG", Any.map [("NPUW_DEVICES", Any.str "CPU")])
          some { exe := { obj := { device := hw_target, config := config }, device := hw_target }
                 device_config := device_config
                 kv_desc := some kv_desc }
    else
      some { exe := { obj := { device := hw_target, config := config }, device := hw_target }
             device_config := device_config
             kv_desc := none }

/-- The other overload `OVCore::CompileModel(const std::string& onnx_model, ...)`:
the device compiler receives `device_config`. -/
def CompileModelFromString (hw_target : String) (device_config : AnyMap) : OVExeNetwork :=
  { obj := { device := hw_target, config := device_config }, device := hw_target }

/-! ## `OVInferRequest` -/

/-- The wrapper object: the engine request, the device it was created for, and
the two shadow buffers. -/
structure OVInferRequest where
  ovInfReq : InferRequest
  device : String
  cached_input_ids : List Int
  cached_position_ids : List Int
deriving DecidableEq, Repr

/-- Trimming of one variable state in the loop of `RewindKVCache`.  Reading
`shape[2]` of a shape of rank below three is undefined (`none`). -/
def trimState (index : Nat) (st : VariableState) : Option VariableState :=
  let old_tensor := st.state
  let shape := old_tensor.shape
  match shape[2]? with
  | none => none
  | some s =>
    if s > index then
      let shape := shape.set 2 index
      -- the view takes `begin = {0, 0, 0, 0}`: the runtime rejects another rank
      if shape.length = 4 then
        some { st with state := roiCopy old_tensor shape }
      else none
    else some st

/-- The loop `for (auto& state : states)` of `RewindKVCache`. -/
def trimStates (index : Nat) : List VariableState → Option (List VariableState)
  | [] => some []
  | st :: rest =>
    match trimState index st with
    | none => none
    | some st1 => (trimStates index rest).map (fun rest1 => st1 :: rest1)

/-- `std::vector::resize(index)` guarded by `size() > index`. -/
def shrink (v : List Int) (index : Nat) : List Int :=
  if v.length > index then v.take index else v

/-- `OVInferRequest::RewindKVCache`. -/
def RewindKVCache (r : OVInferRequest) (index : Nat) : Option OVInferRequest :=
  if r.device = "NPU" then
    some { r with
      cached_input_ids := shrink r.cached_input_ids index
      cached_position_ids := shrink r.cached_position_ids index }
  else
    if index = 0 then
      some { r with ovInfReq := r.ovInfReq.reset_state }
    else
      (trimStates index r.ovInfReq.states).map
        (fun states => { r with ovInfReq := { r.ovInfReq with states := states } })

/-- `OVExeNetwork::CreateInferRequest`: `infReq` is the request the engine
creates; the wrapper starts with empty shadow buffers. -/
def CreateInferRequest (exe : OVExeNetwork) (infReq : InferRequest) : OVInferRequest :=
  { ovInfReq := infReq, device := exe.device, cached_input_ids := [], cached_position_ids := [] }

/-- `OVInferRequest::SetTensor`. -/
def SetTensor (r : OVInferRequest) (name : String) (blob : Tensor) : Option OVInferRequest :=
  (r.ovInfReq.set_tensor name blob).map (fun q => { r with ovInfReq := q })

/-- The tensor `StartAsync` writes to the slot "beam_idx": one `i32` element, `0`. -/
def beam_idx : Tensor :=
  { element_type := ElementType.i32, shape := [1], data := List.replicate 1 0 }

/-- Replacement of a slot by a new tensor of the slot's element type and of the
slot's shape with `shape[1]` set to the size of `cached`, filled from `cached`
through a `data<int64_t>()` pointer. -/
def replaceFromCache (q : InferRequest) (name : String) (old : Tensor) (cached : List Int) :
    Option InferRequest :=
  match old.shape[1]? with
  | none => none
  | some _ =>
    let new_shape := old.shape.set 1 cached.length
    if old.element_type = ElementType.i64 then
      (allocAndCopy old.element_type new_shape cached).bind (fun t => q.set_tensor name t)
    else none

/-- The block of `StartAsync` guarded by `device == "NPU"`: the engine request
and the two shadow buffers after it. -/
def alignInputs (q : InferRequest) (cached_input_ids cached_position_ids : List Int) :
    Option (InferRequest × List Int × List Int) :=
  match q.get_tensor "input_ids" with
  | none => none
  | some input_ids_tensor =>
    match input_ids_tensor.data_i64 with
    | none => none
    | some pData =>
      let cached_input_ids := cached_input_ids ++ input_ids_tensor.readAll pData
      match q.get_tensor "position_ids" with
      | none => none
      | some position_ids =>
        match position_ids.data_i64 with
        | none => none
        | some pData =>
          let cached_position_ids := cached_position_ids ++ position_ids.readAll pData
          if input_ids_tensor.get_size > 1 then
            match input_ids_tensor.shape[1]? with
            | none => none
            | some n =>
              if n ≠ cached_input_ids.length then
                match replaceFromCache q "input_ids" input_ids_tensor cached_input_ids with
                | none => none
                | some q1 =>
                  match q1.get_tensor "position_ids" with
                  | none => none
                  | some position_ids_tensor =>
                    match replaceFromCache q1 "position_ids" position_ids_tensor
                        cached_position_ids with
                    | none => none
                    | some q2 => some (q2, cached_input_ids, cached_position_ids)
              else some (q, cached_input_ids, cached_position_ids)
          else some (q, cached_input_ids, cached_position_ids)

/-- `OVInferRequest::StartAsync`; `fwd` is the forward pass of the compiled model. -/
def StartAsync (fwd : Slots → List VariableState → List VariableState) (r : OVInferRequest) :
    Option OVInferRequest :=
  match r.ovInfReq.set_tensor "beam_idx" beam_idx with
  | none => none
  | some q =>
    if r.device = "NPU" then
      match alignInputs q r.cached_input_ids r.cached_position_ids with
      | none => none
      | some (q1, ids, pos) =>
        some { r with ovInfReq := q1.run fwd, cached_input_ids := ids, cached_position_ids := pos }
    else
      some { r with ovInfReq := q.run fwd }

/-- `OVInferRequest::Infer`: the body is the single call `ovInfReq.infer()`. -/
def Infer (fwd : Slots → List VariableState → List VariableState) (r : OVInferRequest) :
    Option OVInferRequest :=
  some { r with ovInfReq := r.ovInfReq.run fwd }

/-! ## Concrete requests used to instantiate the theorems -/

/-- An identity forward pass, for instantiating the theorems. -/
def fwdId : Slots → List VariableState → List VariableState := fun _ states => states

/-- One layer state of shape `[1, 2, 3, 2]` holding `0 .. 11`. -/
def layerState : VariableState :=
  { name := "past_key_values.0.key"
    init := { element_type := ElementType.f32, shape := [1, 2, 0, 2], data := [] }
    state := { element_type := ElementType.f32, shape := [1, 2, 3, 2],
               data := [0, 1, 2, 3, 4, 5, 6, 7, 8, 9, 10, 11] } }

/-- A request on "CPU" with one layer state. -/
def cpuRequest : OVInferRequest :=
  { ovInfReq :=
      { tensors := [("input_ids", { element_type := ElementType.i64, shape := [1, 0], data := [] }),
                    ("position_ids", { element_type := ElementType.i64, shape := [1, 0], data := [] }),
                    ("beam_idx", { element_type := ElementType.i32, shape := [1], data := [7] })]
        states := [layerState]
        submitted := [] }
    device := "CPU"
    cached_input_ids := []
    cached_position_ids := [] }

/-- A request on "NPU" whose shadow buffers hold five entries each. -/
def npuRequest : OVInferRequest :=
  { ovInfReq :=
      { tensors := [("input_ids", { element_type := ElementType.i64, shape := [1, 0], data := [] }),
                    ("position_ids", { element_type := ElementType.i64, shape := [1, 0], data := [] }),
                    ("beam_idx", { element_type := ElementType.i32, shape := [0], data := [] })]
        states := []
        submitted := [] }
    device := "NPU"
    cached_input_ids := [11, 12, 13, 14, 15]
    cached_position_ids := [0, 1, 2, 3, 4] }

/-- One step of a caller: set "input_ids" and "position_ids", then `StartAsync`. -/
def asyncStep (r : OVInferRequest) (ids pos : List Int) : Option OVInferRequest :=
  (SetTensor r "input_ids" { element_type := ElementType.i64, shape := [1, ids.length], data := ids }).bind
    (fun r1 =>
      (SetTensor r1 "position_ids"
        { element_type := ElementType.i64, shape := [1, pos.length], data := pos }).bind
        (fun r2 => StartAsync fwdId r2))

/-- A request just created on "NPU". -/
def freshNpuRequest : OVInferRequest :=
  CreateInferRequest
    { obj := { device := "NPU", config := [] }, device := "NPU" }
    { tensors := [("input_ids", { element_type := ElementType.i64, shape := [1, 0], data := [] }),
                  ("position_ids", { element_type := ElementType.i64, shape := [1, 0], data := [] }),
                  ("beam_idx", { element_type := ElementType.i32, shape := [0], data := [] })]
      states := []
      submitted := [] }

/-- The request after a step of 8 tokens and a step of 1 token, with the 4 tokens
of a third step set as inputs. -/
def npuThirdStep : OVInferRequest :=
  { ovInfReq :=
      { tensors := [("input_ids", { element_type := ElementType.i64, shape := [1, 4],
                                    data := [110, 111, 112, 113] }),
                    ("position_ids", { element_type := ElementType.i64, shape := [1, 4],
                                       data := [9, 10, 11, 12] }),
                    ("beam_idx", beam_idx)]
        states := []
        submitted := [("input_ids", { element_type := ElementType.i64, shape := [1, 1],
                                      data := [109] }),
                      ("position_ids", { element_type := ElementType.i64, shape := [1, 1],
                                         data := [8] }),
                      ("beam_idx", beam_idx)] }
    device := "NPU"
    cached_input_ids := [101, 102, 103, 104, 105, 106, 107, 108, 109]
    cached_position_ids := [0, 1, 2, 3, 4, 5, 6, 7, 8] }

/-- An instance of the absent `update_npu_config`, for instantiating the
theorems: it records the axes and the two budgets of the descriptor under keys
of the accelerator plugin. -/
def npuOptions : AnyMap → KVAxesPosition → KVDesc → AnyMap :=
  fun config kv_pos kv_desc =>
    update_config
      (update_config
        (update_config
          (update_config config ("NPUW_LLM_BATCH_DIM", Any.num kv_pos.batch))
          ("NPUW_LLM_SEQ_LEN_DIM", Any.num kv_pos.seq_len))
        ("NPUW_LLM_MAX_PROMPT_LEN", Any.num kv_desc.max_prompt_len))
      ("NPUW_LLM_MIN_RESPONSE_LEN", Any.num kv_desc.min_response_len)

/-- Axes of a state tensor `[batch, heads, seq_len, head_dim]`. -/
def kvAxes : KVAxesPosition := { batch := 0, seq_len := 2 }

/-- The engine request a compiled model creates: empty inputs, one layer state. -/
def engineRequest : InferRequest :=
  { tensors := [("input_ids", { element_type := ElementType.i64, shape := [1, 0], data := [] }),
                ("position_ids", { element_type := ElementType.i64, shape := [1, 0], data := [] }),
                ("beam_idx", { element_type := ElementType.i32, shape := [0], data := [] })]
    states := [layerState]
    submitted := [] }

/-- Compilation for the target "NPU.0" with no override. -/
def npu0Outcome : Option CompileOutcome := CompileModel npuOptions (some kvAxes) "NPU.0" []

/-- The request created from the model compiled for "NPU.0". -/
def npu0Request : Option OVInferRequest :=
  npu0Outcome.map (fun out => CreateInferRequest out.exe engineRequest)

/-- Overrides that set only the prompt budget. -/
def promptOverride : AnyMap := [("MAX_PROMPT_LEN", Any.num 2048)]

/-- A raw configuration with one option of the device. -/
def rawConfig : AnyMap := [("PERFORMANCE_HINT", Any.str "LATENCY")]

/-! # Theorems -/

/-! ## Rewinding: auxiliary facts -/

theorem shrink_eq_take (v : List Int) (index : Nat) :
    shrink v index = v.take (min v.length index) := by
  unfold shrink
  by_cases h : v.length > index
  · rw [if_pos h, Nat.min_eq_right (Nat.le_of_lt h)]
  · rw [if_neg h, Nat.min_eq_left (Nat.le_of_not_gt h), List.take_length]

theorem shrink_of_le (v : List Int) (index : Nat) (h : v.length ≤ index) :
    shrink v index = v := by
  unfold shrink
  rw [if_neg (Nat.not_lt.mpr h)]

theorem shrink_length_le (v : List Int) (index : Nat) : (shrink v index).length ≤ index := by
  unfold shrink
  by_cases h : v.length > index
  · rw [if_pos h, List.length_take]
    exact Nat.min_le_left _ _
  · rw [if_neg h]
    exact Nat.le_of_not_gt h

theorem shrink_shrink (v : List Int) (index : Nat) :
    shrink (shrink v index) index = shrink v index :=
  shrink_of_le _ _ (shrink_length_le v index)

/-- A state whose sequence axis is not longer than `index` is left as it is. -/
theorem trimState_of_le (index : Nat) (st : VariableState) (s : Nat)
    (hs : st.state.shape[2]? = some s) (hle : s ≤ index) :
    trimState index st = some st := by
  unfold trimState
  simp only [hs]
  rw [if_neg (Nat.not_lt.mpr hle)]

/-- A state of rank four with a longer sequence axis is replaced by the copy of
its leading region. -/
theorem trimState_of_gt (index : Nat) (st : VariableState) (b h s d : Nat)
    (hshape : st.state.shape = [b, h, s, d]) (hgt : index < s) :
    trimState index st = some { st with state := roiCopy st.state [b, h, index, d] } := by
  unfold trimState
  simp [hshape, hgt]

/-- After a successful trim the sequence axis exists and is at most `index`. -/
theorem trimState_result (index : Nat) (st st1 : VariableState)
    (h : trimState index st = some st1) :
    ∃ s, st1.state.shape[2]? = some s ∧ s ≤ index := by
  unfold trimState at h
  cases hs : st.state.shape[2]? with
  | none => simp [hs] at h
  | some s =>
    simp only [hs] at h
    by_cases hgt : s > index
    · rw [if_pos hgt] at h
      by_cases hlen : (st.state.shape.set 2 index).length = 4
      · rw [if_pos hlen] at h
        injection h with h
        subst h
        refine ⟨index, ?_, Nat.le_refl _⟩
        have h2 : 2 < st.state.shape.length := by
          rw [List.length_set] at hlen
          omega
        simp [roiCopy, List.getElem?_set, h2]
      · rw [if_neg hlen] at h
        cases h
    · rw [if_neg hgt] at h
      injection h with h
      subst h
      exact ⟨s, hs, Nat.le_of_not_gt hgt⟩

theorem trimStates_of_le (index : Nat) (sts : List VariableState)
    (h : ∀ st ∈ sts, ∃ s, st.state.shape[2]? = some s ∧ s ≤ index) :
    trimStates index sts = some sts := by
  induction sts with
  | nil => rfl
  | cons st rest ih =>
    obtain ⟨s, hs, hle⟩ := h st (List.mem_cons_self _ _)
    have hrest := ih (fun x hx => h x (List.mem_cons_of_mem _ hx))
    simp [trimStates, trimState_of_le index st s hs hle, hrest]

theorem trimStates_result (index : Nat) (sts sts1 : List VariableState)
    (h : trimStates index sts = some sts1) :
    ∀ st ∈ sts1, ∃ s, st.state.shape[2]? = some s ∧ s ≤ index := by
  induction sts generalizing sts1 with
  | nil =>
    simp [trimStates] at h
    subst h
    intro st hst
    cases hst
  | cons st rest ih =>
    unfold trimStates at h
    cases h1 : trimState index st with
    | none => simp [h1] at h
    | some st1 =>
      cases h2 : trimStates index rest with
      | none => simp [h1, h2] at h
      | some rest1 =>
        simp [h1, h2] at h
        subst h
        intro x hx
        rcases List.mem_cons.mp hx with hx | hx
        · subst hx
          exact trimState_result index st x h1
        · exact ih rest1 h2 x hx

theorem reset_state_reset_state (q : InferRequest) :
    q.reset_state.reset_state = q.reset_state := by
  simp [InferRequest.reset_state, List.map_map, Function.comp_def]

/-! ## The copied region -/

theorem length_flatMap_range {α : Type} (m : Nat) (f : Nat → List α)
    (hf : ∀ i, (f i).length = m) (n : Nat) :
    ((List.range n).flatMap f).length = n * m := by
  induction n with
  | zero => simp
  | succ n ih =>
    rw [List.range_succ, List.flatMap_append, List.length_append, ih]
    simp [hf, Nat.succ_mul]

theorem getElem?_flatMap_range {α : Type} (m : Nat) (f : Nat → List α)
    (hf : ∀ i, (f i).length = m) (n i r : Nat) (hi : i < n) (hr : r < m) :
    ((List.range n).flatMap f)[i * m + r]? = (f i)[r]? := by
  induction n with
  | zero => omega
  | succ n ih =>
    have hlen := length_flatMap_range m f hf n
    rw [List.range_succ, List.flatMap_append]
    by_cases hin : i < n
    · have hlt : i * m + r < ((List.range n).flatMap f).length := by
        rw [hlen]
        have : (i + 1) * m ≤ n * m := Nat.mul_le_mul_right m hin
        rw [Nat.succ_mul] at this
        omega
      rw [List.getElem?_append_left hlt]
      exact ih hin
    · have hieq : i = n := by omega
      subst hieq
      have hge : ((List.range i).flatMap f).length ≤ i * m + r := by
        rw [hlen]
        omega
      rw [List.getElem?_append_right hge, hlen]
      simp

theorem coords_length (shape : List Nat) : (coords shape).length = shape.prod := by
  induction shape with
  | nil => rfl
  | cons d ds ih =>
    unfold coords
    rw [length_flatMap_range ds.prod _ (fun i => by simp [ih]) d, List.prod_cons]

theorem offset_lt (shape c : List Nat) (h : Below c shape) : offset shape c < shape.prod := by
  induction shape generalizing c with
  | nil =>
    cases c with
    | nil => simp [offset]
    | cons _ _ => exact absurd h (by simp [Below])
  | cons d ds ih =>
    cases c with
    | nil => exact absurd h (by simp [Below])
    | cons x xs =>
      obtain ⟨hx, hxs⟩ := h
      have h1 := ih xs hxs
      have h2 : (x + 1) * ds.prod ≤ d * ds.prod := Nat.mul_le_mul_right _ hx
      rw [Nat.succ_mul] at h2
      simp only [offset, List.prod_cons]
      omega

theorem coords_getElem? (shape c : List Nat) (h : Below c shape) :
    (coords shape)[offset shape c]? = some c := by
  induction shape generalizing c with
  | nil =>
    cases c with
    | nil => rfl
    | cons _ _ => exact absurd h (by simp [Below])
  | cons d ds ih =>
    cases c with
    | nil => exact absurd h (by simp [Below])
    | cons x xs =>
      obtain ⟨hx, hxs⟩ := h
      unfold coords
      simp only [offset]
      rw [getElem?_flatMap_range ds.prod _ (fun i => by simp [coords_length]) d x _ hx
        (offset_lt ds xs hxs)]
      rw [List.getElem?_map, ih xs hxs]
      rfl

/-- Elements of the copied region: the copy of `old` to `shape` holds at every
coordinate below both shapes the element `old` holds there. -/
theorem roiCopy_elem (old : Tensor) (shape c : List Nat) (hwf : old.WellFormed)
    (hnew : Below c shape) (hold : Below c old.shape) :
    (roiCopy old shape).elem c = old.elem c := by
  have hlt : offset old.shape c < old.data.length := by
    rw [hwf]
    exact offset_lt _ _ hold
  simp only [Tensor.elem, roiCopy, List.getElem?_map, coords_getElem? shape c hnew, Option.map_some']
  rw [List.getElem?_eq_getElem hlt, List.getD_eq_getElem _ _ hlt]

theorem roiCopy_wellFormed (old : Tensor) (shape : List Nat) :
    (roiCopy old shape).WellFormed := by
  simp [Tensor.WellFormed, roiCopy, coords_length]

/-! ## Rewinding: the claims -/

theorem shape_of_length_four (shape : List Nat) (h : shape.length = 4) :
    ∃ b h s d, shape = [b, h, s, d] := by
  match shape, h with
  | [b, h, s, d], _ => exact ⟨b, h, s, d, rfl⟩

/-- On states of rank four the loop of `RewindKVCache` never throws, and it
handles the states one by one. -/
theorem trimStates_rank_four (index : Nat) (sts : List VariableState)
    (h4 : ∀ st ∈ sts, st.state.shape.length = 4) :
    ∃ sts1, trimStates index sts = some sts1 ∧ sts1.length = sts.length ∧
      ∀ (n : Nat) (st : VariableState), sts[n]? = some st →
        ∃ st1, sts1[n]? = some st1 ∧ trimState index st = some st1 := by
  induction sts with
  | nil => exact ⟨[], rfl, rfl, fun n st hn => by simp at hn⟩
  | cons st rest ih =>
    obtain ⟨rest1, hrest, hlen, hpt⟩ := ih (fun x hx => h4 x (List.mem_cons_of_mem _ hx))
    obtain ⟨b, h, s, d, hshape⟩ := shape_of_length_four _ (h4 st (List.mem_cons_self _ _))
    have hst : ∃ st1, trimState index st = some st1 := by
      by_cases hgt : index < s
      · exact ⟨_, trimState_of_gt index st b h s d hshape hgt⟩
      · exact ⟨st, trimState_of_le index st s (by simp [hshape]) (Nat.le_of_not_lt hgt)⟩
    obtain ⟨st1, hst1⟩ := hst
    refine ⟨st1 :: rest1, by simp [trimStates, hst1, hrest], by simp [hlen], ?_⟩
    intro n x hn
    cases n with
    | zero =>
      simp at hn
      subst hn
      exact ⟨st1, by simp, hst1⟩
    | succ n =>
      simp at hn
      obtain ⟨x1, hx1, hx2⟩ := hpt n x hn
      exact ⟨x1, by simpa using hx1, hx2⟩

/-- C2. On a device other than "NPU": `RewindKVCache(0)` resets every variable
state to its initial value; `RewindKVCache(index)` with `index > 0`, on states of
shape `[b, h, s, d]`, succeeds, changes nothing but the states, replaces a state
with `s > index` by a tensor of shape `[b, h, index, d]` of the same element type
whose element at `(i, j, k, l)`, `k < index`, is the old tensor's element there,
and leaves a state with `s ≤ index` as it is. -/
theorem RewindKVCache_general_device (r : OVInferRequest) (index : Nat)
    (hdev : r.device ≠ "NPU") :
    RewindKVCache r 0 = some { r with ovInfReq := { r.ovInfReq with
        states := r.ovInfReq.states.map (fun st => { st with state := st.init }) } } ∧
    (0 < index → (∀ st ∈ r.ovInfReq.states, st.state.shape.length = 4) →
      ∃ states,
        RewindKVCache r index
          = some { r with ovInfReq := { r.ovInfReq with states := states } } ∧
        states.length = r.ovInfReq.states.length ∧
        ∀ (n : Nat) (st : VariableState) (b h s d : Nat),
          r.ovInfReq.states[n]? = some st → st.state.shape = [b, h, s, d] →
          (s ≤ index → states[n]? = some st) ∧
          (index < s → ∃ t : Tensor,
            states[n]? = some { st with state := t } ∧
            t.shape = [b, h, index, d] ∧
            t.element_type = st.state.element_type ∧
            t.WellFormed ∧
            (st.state.WellFormed → ∀ i j k l : Nat, i < b → j < h → k < index → l < d →
              t.elem [i, j, k, l] = st.state.elem [i, j, k, l]))) := by
  refine ⟨?_, ?_⟩
  · simp [RewindKVCache, hdev, InferRequest.reset_state]
  · intro hpos h4
    obtain ⟨sts1, hsts, hlen, hpt⟩ := trimStates_rank_four index r.ovInfReq.states h4
    refine ⟨sts1, ?_, hlen, ?_⟩
    · simp [RewindKVCache, hdev, Nat.ne_of_gt hpos, hsts]
    · intro n st b h s d hn hshape
      obtain ⟨st1, hst1, htrim⟩ := hpt n st hn
      refine ⟨?_, ?_⟩
      · intro hle
        rw [trimState_of_le index st s (by simp [hshape]) hle] at htrim
        injection htrim with htrim
        rw [hst1, ← htrim]
      · intro hgt
        rw [trimState_of_gt index st b h s d hshape hgt] at htrim
        injection htrim with htrim
        refine ⟨roiCopy st.state [b, h, index, d], by rw [hst1, ← htrim], rfl, rfl,
          roiCopy_wellFormed _ _, ?_⟩
        intro hwf i j k l hi hj hk hl
        apply roiCopy_elem _ _ _ hwf
        · exact ⟨hi, hj, hk, hl, trivial⟩
        · rw [hshape]
          exact ⟨hi, hj, Nat.lt_trans hk hgt, hl, trivial⟩

/-- C2, instance: on `cpuRequest` (one state of shape `[1, 2, 3, 2]`) a rewind to
2 keeps the first two positions of each head, and a rewind to 0 restores the
empty initial state. -/
theorem RewindKVCache_general_device_witness :
    cpuRequest.device ≠ "NPU" ∧
    RewindKVCache cpuRequest 0 = some { cpuRequest with ovInfReq := { cpuRequest.ovInfReq with
        states := cpuRequest.ovInfReq.states.map (fun st => { st with state := st.init }) } } ∧
    (RewindKVCache cpuRequest 2).map (fun r => r.ovInfReq.states.map (fun st => st.state))
      = some [{ element_type := ElementType.f32, shape := [1, 2, 2, 2],
                data := [0, 1, 2, 3, 6, 7, 8, 9] }] :=
  ⟨by decide, (RewindKVCache_general_device cpuRequest 2 (by decide)).1, by decide⟩

/-- C3. On device "NPU", `RewindKVCache(index)` succeeds, leaves each shadow
buffer equal to the first `min len index` entries of its previous value
(unchanged when `len ≤ index`, of length `index` when longer), and leaves the
engine request (tensors and KV states) and the device as they were. -/
theorem RewindKVCache_npu (r : OVInferRequest) (index : Nat) (hdev : r.device = "NPU") :
    ∃ r1, RewindKVCache r index = some r1 ∧
      r1.cached_input_ids = r.cached_input_ids.take (min r.cached_input_ids.length index) ∧
      r1.cached_position_ids
        = r.cached_position_ids.take (min r.cached_position_ids.length index) ∧
      (r.cached_input_ids.length ≤ index → r1.cached_input_ids = r.cached_input_ids) ∧
      (r.cached_position_ids.length ≤ index → r1.cached_position_ids = r.cached_position_ids) ∧
      (index < r.cached_input_ids.length → r1.cached_input_ids.length = index) ∧
      (index < r.cached_position_ids.length → r1.cached_position_ids.length = index) ∧
      r1.ovInfReq = r.ovInfReq ∧ r1.device = r.device := by
  refine ⟨{ r with
      cached_input_ids := shrink r.cached_input_ids index
      cached_position_ids := shrink r.cached_position_ids index },
    by simp only [RewindKVCache, if_pos hdev], ?_, ?_, ?_, ?_, ?_, ?_, rfl, rfl⟩
  · exact shrink_eq_take _ _
  · exact shrink_eq_take _ _
  · exact shrink_of_le _ _
  · exact shrink_of_le _ _
  · intro h
    simp only [shrink_eq_take, List.length_take]
    omega
  · intro h
    simp only [shrink_eq_take, List.length_take]
    omega

/-- C3, instance: `npuRequest` holds five cached entries; a rewind to 3 keeps the
first three of each buffer. -/
theorem RewindKVCache_npu_witness :
    npuRequest.device = "NPU" ∧
    ∃ r1, RewindKVCache npuRequest 3 = some r1 ∧
      r1.cached_input_ids = [11, 12, 13] ∧ r1.cached_position_ids = [0, 1, 2] ∧
      r1.ovInfReq = npuRequest.ovInfReq :=
  ⟨by decide,
    match RewindKVCache_npu npuRequest 3 (by decide) with
    | ⟨r1, h, hi, hp, _, _, _, _, hq, _⟩ => ⟨r1, h, hi, hp, hq⟩⟩

/-- C4. Rewinding twice to the same index is rewinding once: after
`RewindKVCache(k)` a second `RewindKVCache(k)` gives the same outcome (the same
shadow buffers and the same state tensors; an exception of the first call is the
outcome of both). -/
theorem RewindKVCache_idempotent (r : OVInferRequest) (k : Nat) :
    (RewindKVCache r k).bind (fun r1 => RewindKVCache r1 k) = RewindKVCache r k := by
  by_cases hdev : r.device = "NPU"
  · simp [RewindKVCache, hdev, shrink_shrink]
  · by_cases hk : k = 0
    · simp [RewindKVCache, hdev, hk, reset_state_reset_state]
    · cases hsts : trimStates k r.ovInfReq.states with
      | none => simp [RewindKVCache, hdev, hk, hsts]
      | some sts1 =>
        have h2 := trimStates_of_le k sts1 (trimStates_result k _ sts1 hsts)
        simp [RewindKVCache, hdev, hk, hsts, h2]

/-- C5. A rewind to an index greater than the current history length (both
shadow buffers on "NPU"; the sequence axis of every state tensor elsewhere)
raises no error and returns the request unchanged. -/
theorem RewindKVCache_beyond_length (r : OVInferRequest) (index : Nat)
    (hnpu : r.device = "NPU" →
      r.cached_input_ids.length < index ∧ r.cached_position_ids.length < index)
    (hgen : r.device ≠ "NPU" →
      ∀ st ∈ r.ovInfReq.states, ∃ s, st.state.shape[2]? = some s ∧ s < index) :
    RewindKVCache r index = some r := by
  obtain ⟨⟨tensors, states, submitted⟩, device, ids, pos⟩ := r
  simp only at hnpu hgen
  by_cases hdev : device = "NPU"
  · obtain ⟨h1, h2⟩ := hnpu hdev
    simp [RewindKVCache, hdev, shrink_of_le _ _ (Nat.le_of_lt h1),
      shrink_of_le _ _ (Nat.le_of_lt h2)]
  · have hall := hgen hdev
    by_cases hk : index = 0
    · have hnil : states = [] := by
        cases states with
        | nil => rfl
        | cons st rest =>
          obtain ⟨s, _, hlt⟩ := hall st (by simp)
          omega
      simp [RewindKVCache, hdev, hk, InferRequest.reset_state, hnil]
    · have h2 := trimStates_of_le index states
        (fun st hst => match hall st hst with | ⟨s, hs, hlt⟩ => ⟨s, hs, Nat.le_of_lt hlt⟩)
      simp [RewindKVCache, hdev, hk, h2]

/-- C5, instance: `npuRequest` (five cached entries) and `cpuRequest` (sequence
axis 3) are both unchanged by a rewind to 9. -/
theorem RewindKVCache_beyond_length_witness :
    RewindKVCache npuRequest 9 = some npuRequest ∧
    RewindKVCache cpuRequest 9 = some cpuRequest :=
  ⟨RewindKVCache_beyond_length npuRequest 9 (fun _ => by decide)
      (fun h => absurd rfl h),
    RewindKVCache_beyond_length cpuRequest 9 (fun h => absurd h (by decide))
      (fun _ => by decide)⟩

/-! ## Tensor slots -/

theorem Slots.find_replace_same (s s1 : Slots) (name : String) (t : Tensor)
    (h : Slots.replace s name t = some s1) : Slots.find s1 name = some t := by
  induction s generalizing s1 with
  | nil => simp [Slots.replace] at h
  | cons kv rest ih =>
    obtain ⟨k, v⟩ := kv
    unfold Slots.replace at h
    by_cases hk : k = name
    · rw [if_pos hk] at h
      injection h with h
      subst h
      simp [Slots.find, hk]
    · rw [if_neg hk] at h
      cases hr : Slots.replace rest name t with
      | none => simp [hr] at h
      | some rest1 =>
        simp [hr] at h
        subst h
        simp [Slots.find, hk, ih rest1 hr]

theorem Slots.find_replace_other (s s1 : Slots) (name other : String) (t : Tensor)
    (h : Slots.replace s name t = some s1) (hne : other ≠ name) :
    Slots.find s1 other = Slots.find s other := by
  induction s generalizing s1 with
  | nil => simp [Slots.replace] at h
  | cons kv rest ih =>
    obtain ⟨k, v⟩ := kv
    unfold Slots.replace at h
    by_cases hk : k = name
    · rw [if_pos hk] at h
      injection h with h
      subst h
      have hko : k ≠ other := fun e => hne (e ▸ hk)
      simp [Slots.find, hko]
    · rw [if_neg hk] at h
      cases hr : Slots.replace rest name t with
      | none => simp [hr] at h
      | some rest1 =>
        simp [hr] at h
        subst h
        simp [Slots.find, ih rest1 hr]

theorem Slots.replace_isSome (s : Slots) (name : String) (old t : Tensor)
    (h : Slots.find s name = some old) : ∃ s1, Slots.replace s name t = some s1 := by
  induction s with
  | nil => simp [Slots.find] at h
  | cons kv rest ih =>
    obtain ⟨k, v⟩ := kv
    unfold Slots.find at h
    unfold Slots.replace
    by_cases hk : k = name
    · exact ⟨_, if_pos hk⟩
    · rw [if_neg hk] at h
      obtain ⟨rest1, hr⟩ := ih h
      exact ⟨(k, v) :: rest1, by rw [if_neg hk, hr]; rfl⟩

theorem readAll_eq (ty : ElementType) (n : Nat) (data : List Int) (h : data.length = n) :
    Tensor.readAll { element_type := ty, shape := [1, n], data := data } data = data := by
  apply List.ext_getElem
  · simp [Tensor.readAll, Tensor.get_size, h]
  · intro i h1 h2
    simp [Tensor.readAll, List.getElem?_eq_getElem h2]

theorem allocAndCopy_row (ty : ElementType) (src : List Int) :
    allocAndCopy ty [1, src.length] src
      = some { element_type := ty, shape := [1, src.length], data := src } := by
  simp [allocAndCopy]

/-! ## `StartAsync` on "NPU" -/

/-- The block for "NPU" in full generality: with shadow buffers `c` and `p` of
any lengths, input_ids `[1, n]`, `n > 1`, holding `t` and position_ids `[1, n]`
holding `q`, `StartAsync` succeeds, leaves the buffers `c ++ t` and `p ++ q`, and
submits an input_ids of shape `[1, |c| + n]` with content `c ++ t`; the submitted
position_ids is sized from its own buffer when `c` is not empty and is the tensor
that was set when `c` is empty. -/
theorem StartAsync_npu_prefill_general (fwd : Slots → List VariableState → List VariableState)
    (r : OVInferRequest) (n : Nat) (t q : List Int) (old_beam : Tensor)
    (hdev : r.device = "NPU")
    (hbeam : r.ovInfReq.get_tensor "beam_idx" = some old_beam)
    (hids : r.ovInfReq.get_tensor "input_ids"
      = some { element_type := ElementType.i64, shape := [1, n], data := t })
    (hpos : r.ovInfReq.get_tensor "position_ids"
      = some { element_type := ElementType.i64, shape := [1, n], data := q })
    (hn : 1 < n) (ht : t.length = n) (hq : q.length = n) :
    ∃ r1, StartAsync fwd r = some r1 ∧
      r1.cached_input_ids = r.cached_input_ids ++ t ∧
      r1.cached_position_ids = r.cached_position_ids ++ q ∧
      r1.ovInfReq.submitted.find "input_ids"
        = some { element_type := ElementType.i64, shape := [1, r.cached_input_ids.length + n],
                 data := r.cached_input_ids ++ t } ∧
      (r.cached_input_ids ≠ [] →
        r1.ovInfReq.submitted.find "position_ids"
          = some { element_type := ElementType.i64,
                   shape := [1, r.cached_position_ids.length + n],
                   data := r.cached_position_ids ++ q }) ∧
      (r.cached_input_ids = [] →
        r1.ovInfReq.submitted.find "position_ids"
          = some { element_type := ElementType.i64, shape := [1, n], data := q }) ∧
      (r.cached_input_ids.length = r.cached_position_ids.length →
        r1.ovInfReq.submitted.find "position_ids"
          = some { element_type := ElementType.i64,
                   shape := [1, r.cached_input_ids.length + n],
                   data := r.cached_position_ids ++ q }) := by
  obtain ⟨⟨tensors, states, submitted⟩, device, c, p⟩ := r
  simp only [InferRequest.get_tensor] at hdev hbeam hids hpos
  subst hdev
  obtain ⟨ts1, hts1⟩ := Slots.replace_isSome tensors "beam_idx" old_beam beam_idx hbeam
  have hids1 : Slots.find ts1 "input_ids" = _ :=
    (Slots.find_replace_other tensors ts1 "beam_idx" "input_ids" beam_idx hts1 (by decide)).trans hids
  have hpos1 : Slots.find ts1 "position_ids" = _ :=
    (Slots.find_replace_other tensors ts1 "beam_idx" "position_ids" beam_idx hts1
      (by decide)).trans hpos
  have hrt := readAll_eq ElementType.i64 n t ht
  have hrq := readAll_eq ElementType.i64 n q hq
  by_cases hc : c = []
  · subst hc
    refine ⟨⟨InferRequest.run fwd ⟨ts1, states, submitted⟩, "NPU", t, p ++ q⟩,
      ?_, ?_, rfl, ?_, ?_, ?_, ?_⟩
    · simp [StartAsync, InferRequest.set_tensor, hts1, alignInputs, InferRequest.get_tensor,
        hids1, hpos1, Tensor.data_i64, hrt, hrq, Tensor.get_size, hn, ht]
    · simp
    · simpa [InferRequest.run] using hids1
    · intro h
      exact absurd rfl h
    · intro _
      simpa [InferRequest.run] using hpos1
    · intro h
      have hp : p = [] := List.eq_nil_of_length_eq_zero h.symm
      subst hp
      simpa [InferRequest.run] using hpos1
  · have hlen : c.length ≠ 0 := fun h => hc (List.eq_nil_of_length_eq_zero h)
    obtain ⟨ts2, hts2⟩ := Slots.replace_isSome ts1 "input_ids" _
      { element_type := ElementType.i64, shape := [1, c.length + n], data := c ++ t } hids1
    have hpos2 : Slots.find ts2 "position_ids" = _ :=
      (Slots.find_replace_other ts1 ts2 "input_ids" "position_ids" _ hts2 (by decide)).trans hpos1
    obtain ⟨ts3, hts3⟩ := Slots.replace_isSome ts2 "position_ids" _
      { element_type := ElementType.i64, shape := [1, p.length + n], data := p ++ q } hpos2
    have hin3 : Slots.find ts3 "input_ids" = _ :=
      (Slots.find_replace_other ts2 ts3 "position_ids" "input_ids" _ hts3 (by decide)).trans
        (Slots.find_replace_same ts1 ts2 "input_ids" _ hts2)
    have hpos3 := Slots.find_replace_same ts2 ts3 "position_ids" _ hts3
    have hac := allocAndCopy_row ElementType.i64 (c ++ t)
    have hap := allocAndCopy_row ElementType.i64 (p ++ q)
    simp only [List.length_append, ht, hq] at hac hap
    have hposfinal : Slots.find (InferRequest.run fwd ⟨ts3, states, submitted⟩).submitted
        "position_ids" = some { element_type := ElementType.i64, shape := [1, p.length + n],
                                data := p ++ q } := by
      simpa [InferRequest.run] using hpos3
    refine ⟨⟨InferRequest.run fwd ⟨ts3, states, submitted⟩, "NPU", c ++ t, p ++ q⟩,
      ?_, rfl, rfl, ?_, ?_, ?_, ?_⟩
    · simp [StartAsync, InferRequest.set_tensor, hts1, alignInputs, InferRequest.get_tensor,
        hids1, hpos1, Tensor.data_i64, hrt, hrq, Tensor.get_size, hn, ht, hq, hlen,
        replaceFromCache, hac, hap, hts2, hpos2, hts3]
    · simpa [InferRequest.run] using hin3
    · intro _
      exact hposfinal
    · intro h
      exact absurd h hc
    · intro h
      simp only at h
      rw [h]
      exact hposfinal

/-- On "NPU" a rewind keeps shadow buffers of equal length equal in length. -/
theorem RewindKVCache_keeps_sync (r r1 : OVInferRequest) (index : Nat)
    (hdev : r.device = "NPU")
    (hlen : r.cached_input_ids.length = r.cached_position_ids.length)
    (h : RewindKVCache r index = some r1) :
    r1.cached_input_ids.length = r1.cached_position_ids.length := by
  simp only [RewindKVCache, if_pos hdev] at h
  injection h with h
  subst h
  simp only [shrink_eq_take, List.length_take, hlen]

/-- C1. On device "NPU", with shadow buffers `c` (input ids) and `p` (position
ids) of the same length, input_ids of shape `[1, n]`, `n > 1`, holding `t`, and
position_ids of shape `[1, n]` holding `q`: `StartAsync` succeeds and leaves
`cached_input_ids = c ++ t` and `cached_position_ids = p ++ q` (again of the same
length); the input_ids and position_ids submitted to the engine have shape
`[1, |c| + n]` and content exactly `c ++ t` and `p ++ q`; when `c` is empty these
are the tensors that were set. -/
theorem StartAsync_npu_prefill (fwd : Slots → List VariableState → List VariableState)
    (r : OVInferRequest) (n : Nat) (t q : List Int) (old_beam : Tensor)
    (hdev : r.device = "NPU")
    (hlen : r.cached_input_ids.length = r.cached_position_ids.length)
    (hbeam : r.ovInfReq.get_tensor "beam_idx" = some old_beam)
    (hids : r.ovInfReq.get_tensor "input_ids"
      = some { element_type := ElementType.i64, shape := [1, n], data := t })
    (hpos : r.ovInfReq.get_tensor "position_ids"
      = some { element_type := ElementType.i64, shape := [1, n], data := q })
    (hn : 1 < n) (ht : t.length = n) (hq : q.length = n) :
    ∃ r1, StartAsync fwd r = some r1 ∧
      r1.cached_input_ids = r.cached_input_ids ++ t ∧
      r1.cached_position_ids = r.cached_position_ids ++ q ∧
      r1.cached_input_ids.length = r1.cached_position_ids.length ∧
      r1.ovInfReq.submitted.find "input_ids"
        = some { element_type := ElementType.i64, shape := [1, r.cached_input_ids.length + n],
                 data := r.cached_input_ids ++ t } ∧
      r1.ovInfReq.submitted.find "position_ids"
        = some { element_type := ElementType.i64, shape := [1, r.cached_input_ids.length + n],
                 data := r.cached_position_ids ++ q } ∧
      (r.cached_input_ids = [] →
        r1.ovInfReq.submitted.find "input_ids" = r.ovInfReq.get_tensor "input_ids" ∧
        r1.ovInfReq.submitted.find "position_ids" = r.ovInfReq.get_tensor "position_ids") := by
  obtain ⟨r1, h, hc, hp, hsi, _, hempty, hsync⟩ :=
    StartAsync_npu_prefill_general fwd r n t q old_beam hdev hbeam hids hpos hn ht hq
  refine ⟨r1, h, hc, hp, ?_, hsi, hsync hlen, ?_⟩
  · rw [hc, hp, List.length_append, List.length_append, hlen, ht, hq]
  · intro hnil
    refine ⟨?_, ?_⟩
    · rw [hsi, hids, hnil]
      simp
    · rw [hempty hnil, hpos]

/-- C1, instance. From a fresh request, steps of 8 tokens and of 1 token leave
shadow buffers of 9 entries; with 4 more tokens set, `StartAsync` submits an
input_ids of shape `[1, 13]` holding all 13 tokens, and a position_ids of shape
`[1, 13]`. -/
theorem StartAsync_npu_prefill_witness :
    (((asyncStep freshNpuRequest [101, 102, 103, 104, 105, 106, 107, 108]
          [0, 1, 2, 3, 4, 5, 6, 7]).bind (fun r => asyncStep r [109] [8])).map
        (fun r => (r.cached_input_ids.length, r.cached_position_ids.length)) = some (9, 9)) ∧
    ((((asyncStep freshNpuRequest [101, 102, 103, 104, 105, 106, 107, 108]
          [0, 1, 2, 3, 4, 5, 6, 7]).bind (fun r => asyncStep r [109] [8])).bind
        (fun r => SetTensor r "input_ids"
          { element_type := ElementType.i64, shape := [1, 4], data := [110, 111, 112, 113] })).bind
        (fun r => SetTensor r "position_ids"
          { element_type := ElementType.i64, shape := [1, 4], data := [9, 10, 11, 12] })
      = some npuThirdStep) ∧
    ∃ r1, StartAsync fwdId npuThirdStep = some r1 ∧
      r1.cached_input_ids
        = [101, 102, 103, 104, 105, 106, 107, 108, 109, 110, 111, 112, 113] ∧
      r1.cached_position_ids = [0, 1, 2, 3, 4, 5, 6, 7, 8, 9, 10, 11, 12] ∧
      r1.ovInfReq.submitted.find "input_ids"
        = some { element_type := ElementType.i64, shape := [1, 13],
                 data := [101, 102, 103, 104, 105, 106, 107, 108, 109, 110, 111, 112, 113] } ∧
      r1.ovInfReq.submitted.find "position_ids"
        = some { element_type := ElementType.i64, shape := [1, 13],
                 data := [0, 1, 2, 3, 4, 5, 6, 7, 8, 9, 10, 11, 12] } :=
  ⟨by decide, by decide,
    match StartAsync_npu_prefill fwdId npuThirdStep 4 [110, 111, 112, 113] [9, 10, 11, 12]
        beam_idx (by decide) (by decide) (by decide) (by decide) (by decide) (by decide)
        (by decide) (by decide) with
    | ⟨r1, h, hc, hp, _, hs, hpos, _⟩ => ⟨r1, h, hc, hp, hs, hpos⟩⟩

/-! ## `Infer` -/

/-- C6, the code at a failing input. `cpuRequest` has "beam_idx" set to the
one-element tensor `[7]`: `Infer` submits that tensor, while `StartAsync` from
the same request submits the one-element `i32` tensor `[0]`. -/
theorem Infer_beam_idx_not_forced :
    cpuRequest.ovInfReq.get_tensor "beam_idx"
      = some { element_type := ElementType.i32, shape := [1], data := [7] } ∧
    (Infer fwdId cpuRequest).map (fun r => r.ovInfReq.submitted.find "beam_idx")
      = some (some { element_type := ElementType.i32, shape := [1], data := [7] }) ∧
    (StartAsync fwdId cpuRequest).map (fun r => r.ovInfReq.submitted.find "beam_idx")
      = some (some { element_type := ElementType.i32, shape := [1], data := [0] }) := by
  decide

/-- C7, the code at a failing input. On `npuThirdStep` (9 cached entries, 4
tokens set) `Infer` leaves the shadow buffers at 9 entries and submits the
4-token input_ids, while `StartAsync` extends the buffers to 13 entries and
submits an input_ids of shape `[1, 13]`. -/
theorem Infer_skips_alignment :
    npuThirdStep.device = "NPU" ∧
    (Infer fwdId npuThirdStep).map
        (fun r => (r.cached_input_ids.length, r.cached_position_ids.length,
          (r.ovInfReq.submitted.find "input_ids").map (fun t => t.shape),
          (r.ovInfReq.submitted.find "position_ids").map (fun t => t.shape)))
      = some (9, 9, some [1, 4], some [1, 4]) ∧
    (StartAsync fwdId npuThirdStep).map
        (fun r => (r.cached_input_ids.length, r.cached_position_ids.length,
          (r.ovInfReq.submitted.find "input_ids").map (fun t => t.shape),
          (r.ovInfReq.submitted.find "position_ids").map (fun t => t.shape)))
      = some (13, 13, some [1, 13], some [1, 13]) :=
  ⟨by decide, rfl, rfl⟩

/-! ## Compilation -/

theorem AnyMap.not_mem_keys_erase (m : AnyMap) (key : String) : key ∉ (m.erase key).keys := by
  induction m with
  | nil => simp [AnyMap.erase, AnyMap.keys]
  | cons kv rest ih =>
    obtain ⟨k, v⟩ := kv
    unfold AnyMap.erase
    by_cases hk : k = key
    · rw [if_pos hk]
      exact ih
    · rw [if_neg hk]
      simp only [AnyMap.keys, List.map_cons, List.mem_cons, not_or]
      exact ⟨fun e => hk e.symm, ih⟩

theorem AnyMap.not_mem_keys_erase_of_not_mem (m : AnyMap) (key other : String)
    (h : other ∉ m.keys) : other ∉ (m.erase key).keys := by
  induction m with
  | nil => simp [AnyMap.erase, AnyMap.keys]
  | cons kv rest ih =>
    obtain ⟨k, v⟩ := kv
    simp only [AnyMap.keys, List.map_cons, List.mem_cons, not_or] at h
    unfold AnyMap.erase
    by_cases hk : k = key
    · rw [if_pos hk]
      exact ih h.2
    · rw [if_neg hk]
      simp only [AnyMap.keys, List.map_cons, List.mem_cons, not_or]
      exact ⟨h.1, ih h.2⟩

theorem AnyMap.not_mem_keys_of_find_none (m : AnyMap) (key : String)
    (h : m.find key = none) : key ∉ m.keys := by
  induction m with
  | nil => simp [AnyMap.keys]
  | cons kv rest ih =>
    obtain ⟨k, v⟩ := kv
    unfold AnyMap.find at h
    by_cases hk : k = key
    · rw [if_pos hk] at h
      cases h
    · rw [if_neg hk] at h
      simp only [AnyMap.keys, List.map_cons, List.mem_cons, not_or]
      exact ⟨fun e => hk e.symm, ih h⟩

theorem AnyMap.find_erase_other (m : AnyMap) (key other : String) (hne : other ≠ key) :
    (m.erase key).find other = m.find other := by
  induction m with
  | nil => rfl
  | cons kv rest ih =>
    obtain ⟨k, v⟩ := kv
    unfold AnyMap.erase
    by_cases hk : k = key
    · have hko : k ≠ other := fun e => hne (e ▸ hk)
      rw [if_pos hk, ih]
      simp [AnyMap.find, hko]
    · rw [if_neg hk]
      simp [AnyMap.find, ih]

theorem not_mem_keys_update_config (config : AnyMap) (pair : String × Any) (other : String)
    (hne : other ≠ pair.1) (h : other ∉ config.keys) :
    other ∉ (update_config config pair).keys := by
  have h1 := AnyMap.not_mem_keys_erase_of_not_mem config pair.1 other h
  simp only [AnyMap.keys] at h1
  simp [update_config, AnyMap.keys, h1, hne]

/-- The absent key: `pop_int_and_cast` gives no value and the same map. -/
theorem pop_int_and_cast_absent (config : AnyMap) (key : String)
    (h : config.find key = none) : pop_int_and_cast config key = some (none, config) := by
  simp [pop_int_and_cast, h]

/-- The numeric key in range: `pop_int_and_cast` gives the number and the map
without the key. -/
theorem pop_int_and_cast_num (config : AnyMap) (key : String) (n : Nat) (hn : n < 2 ^ 32)
    (h : config.find key = some (Any.num n)) :
    pop_int_and_cast config key = some (some n, config.erase key) := by
  have hmod : ((n : Int) % 2 ^ 32).toNat = n := by
    have : ((n : Int) % 2 ^ 32) = ((n % 2 ^ 32 : Nat) : Int) := by norm_cast
    rw [this, Int.toNat_ofNat, Nat.mod_eq_of_lt hn]
  simp only [pop_int_and_cast, h, hmod]

/-- What `pop_int_and_cast` does on a key that is absent or holds a number in
range: it succeeds, the value is the number if there is one, the key is gone and
the other keys are as before. -/
theorem pop_int_and_cast_spec (config : AnyMap) (key : String)
    (h : ∀ v, config.find key = some v → ∃ n : Nat, n < 2 ^ 32 ∧ v = Any.num n) :
    ∃ val rest, pop_int_and_cast config key = some (val, rest) ∧
      (config.find key = none → val = none) ∧
      (∀ n : Nat, config.find key = some (Any.num n) → val = some n) ∧
      key ∉ rest.keys ∧
      (∀ other, other ≠ key → rest.find other = config.find other) ∧
      (∀ other, other ∉ config.keys → other ∉ rest.keys) := by
  cases hf : config.find key with
  | none =>
    refine ⟨none, config, pop_int_and_cast_absent config key hf, fun _ => rfl, ?_,
      AnyMap.not_mem_keys_of_find_none config key hf, fun _ _ => rfl, fun _ ho => ho⟩
    intro n hn
    cases hn
  | some v =>
    obtain ⟨n, hn, hv⟩ := h v hf
    subst hv
    refine ⟨some n, config.erase key, pop_int_and_cast_num config key n hn hf, ?_, ?_,
      AnyMap.not_mem_keys_erase config key,
      fun other ho => AnyMap.find_erase_other config key other ho,
      fun other ho => AnyMap.not_mem_keys_erase_of_not_mem config key other ho⟩
    · intro h0
      cases h0
    · intro m hm
      injection hm with hm
      injection hm with hm
      exact congrArg some (Int.ofNat.inj hm)

/-- C8. For a target containing "NPU" and overrides whose MAX_PROMPT_LEN and
MIN_RESPONSE_LEN, when present, are numbers below `2 ^ 32`, and when the graph
stage succeeded: `CompileModel` succeeds; `max_prompt_len` is the MAX_PROMPT_LEN
override if present, else 1024; `min_response_len` is the MIN_RESPONSE_LEN
override if present, else 128; the option map handed to the device compiler and
the remaining `device_config` contain neither key (for the option map, given that
the absent `update_npu_config` writes neither key), and every other key of
`device_config` keeps its value. -/
theorem CompileModel_npu_kv_desc
    (update_npu_config : AnyMap → KVAxesPosition → KVDesc → AnyMap)
    (kv_pos : KVAxesPosition) (hw_target : String) (device_config : AnyMap)
    (hnpu : contains hw_target "NPU" = true)
    (hmax : ∀ v, device_config.find "MAX_PROMPT_LEN" = some v →
      ∃ n : Nat, n < 2 ^ 32 ∧ v = Any.num n)
    (hmin : ∀ v, device_config.find "MIN_RESPONSE_LEN" = some v →
      ∃ n : Nat, n < 2 ^ 32 ∧ v = Any.num n)
    (hupd : ∀ pos desc, "MAX_PROMPT_LEN" ∉ (update_npu_config [] pos desc).keys ∧
      "MIN_RESPONSE_LEN" ∉ (update_npu_config [] pos desc).keys) :
    ∃ out desc, CompileModel update_npu_config (some kv_pos) hw_target device_config = some out ∧
      out.kv_desc = some desc ∧
      (device_config.find "MAX_PROMPT_LEN" = none → desc.max_prompt_len = 1024) ∧
      (∀ n : Nat, device_config.find "MAX_PROMPT_LEN" = some (Any.num n) →
        desc.max_prompt_len = n) ∧
      (device_config.find "MIN_RESPONSE_LEN" = none → desc.min_response_len = 128) ∧
      (∀ n : Nat, device_config.find "MIN_RESPONSE_LEN" = some (Any.num n) →
        desc.min_response_len = n) ∧
      "MAX_PROMPT_LEN" ∉ out.exe.obj.config.keys ∧
      "MIN_RESPONSE_LEN" ∉ out.exe.obj.config.keys ∧
      "MAX_PROMPT_LEN" ∉ out.device_config.keys ∧
      "MIN_RESPONSE_LEN" ∉ out.device_config.keys ∧
      (∀ other, other ≠ "MAX_PROMPT_LEN" → other ≠ "MIN_RESPONSE_LEN" →
        out.device_config.find other = device_config.find other) := by
  obtain ⟨v1, rest1, hpop1, hnone1, hnum1, hgone1, hother1, _⟩ :=
    pop_int_and_cast_spec device_config "MAX_PROMPT_LEN" hmax
  have hmin1 : ∀ v, rest1.find "MIN_RESPONSE_LEN" = some v →
      ∃ n : Nat, n < 2 ^ 32 ∧ v = Any.num n := by
    intro v hv
    rw [hother1 "MIN_RESPONSE_LEN" (by decide)] at hv
    exact hmin v hv
  obtain ⟨v2, rest2, hpop2, hnone2, hnum2, hgone2, hother2, hkeep2⟩ :=
    pop_int_and_cast_spec rest1 "MIN_RESPONSE_LEN" hmin1
  have hfind2 : rest1.find "MIN_RESPONSE_LEN" = device_config.find "MIN_RESPONSE_LEN" :=
    hother1 "MIN_RESPONSE_LEN" (by decide)
  refine ⟨⟨⟨⟨hw_target, update_config
      (update_npu_config [] kv_pos ⟨v1.getD 1024, v2.getD 128⟩)
      ("++NPUW_LLM_PREFILL_CONFIG", Any.map [("NPUW_DEVICES", Any.str "CPU")])⟩, hw_target⟩,
    rest2, some ⟨v1.getD 1024, v2.getD 128⟩⟩,
    { max_prompt_len := v1.getD 1024, min_response_len := v2.getD 128 }, ?_, rfl,
    ?_, ?_, ?_, ?_, ?_, ?_, ?_, ?_, ?_⟩
  · simp only [CompileModel, hnpu, if_true, hpop1, hpop2]
  · intro h
    simp [hnone1 h]
  · intro n h
    simp [hnum1 n h]
  · intro h
    simp [hnone2 (hfind2.trans h)]
  · intro n h
    simp [hnum2 n (hfind2.trans h)]
  · exact not_mem_keys_update_config _ _ _ (by decide) (hupd _ _).1
  · exact not_mem_keys_update_config _ _ _ (by decide) (hupd _ _).2
  · exact hkeep2 _ hgone1
  · exact hgone2
  · intro other h1 h2
    simp only
    rw [hother2 other h2, hother1 other h1]

/-- C8, instance: overrides `MAX_PROMPT_LEN = 2048` without MIN_RESPONSE_LEN on
the target "NPU" resolve to the descriptor `(2048, 128)`, and neither map holds
one of the two keys. -/
theorem CompileModel_npu_kv_desc_witness :
    contains "NPU" "NPU" = true ∧
    ∃ out desc, CompileModel npuOptions (some kvAxes) "NPU" promptOverride = some out ∧
      out.kv_desc = some desc ∧
      desc.max_prompt_len = 2048 ∧ desc.min_response_len = 128 ∧
      "MAX_PROMPT_LEN" ∉ out.exe.obj.config.keys ∧
      "MIN_RESPONSE_LEN" ∉ out.exe.obj.config.keys ∧
      "MAX_PROMPT_LEN" ∉ out.device_config.keys ∧
      "MIN_RESPONSE_LEN" ∉ out.device_config.keys :=
  ⟨by decide,
    match CompileModel_npu_kv_desc npuOptions kvAxes "NPU" promptOverride (by decide)
        (fun v hv => ⟨2048, by decide, by
          simp [promptOverride, AnyMap.find] at hv
          exact hv.symm⟩)
        (fun v hv => by simp [promptOverride, AnyMap.find] at hv)
        (fun pos desc => by
          constructor <;> simp [npuOptions, update_config, AnyMap.erase, AnyMap.keys]) with
    | ⟨out, desc, h, hd, _, hmaxn, hminnone, _, hc1, hc2, hd1, hd2, _⟩ =>
      ⟨out, desc, h, hd, hmaxn 2048 rfl, hminnone rfl, hc1, hc2, hd1, hd2⟩⟩

/-- On a target that does not contain "NPU" the device compiler receives the
empty option map, whatever `device_config` holds; `device_config` is untouched. -/
theorem CompileModel_general_device
    (update_npu_config : AnyMap → KVAxesPosition → KVDesc → AnyMap)
    (kv_pos : KVAxesPosition) (hw_target : String) (device_config : AnyMap)
    (h : contains hw_target "NPU" = false) :
    CompileModel update_npu_config (some kv_pos) hw_target device_config
      = some ⟨⟨⟨hw_target, []⟩, hw_target⟩, device_config, none⟩ := by
  simp [CompileModel, h]

/-- C9, the code at a failing input. For the target "CPU" and the raw
configuration `PERFORMANCE_HINT = LATENCY`, the option map `CompileModel` hands
to the device compiler has no key, while the raw configuration has the key
PERFORMANCE_HINT; the overload taking the model as a string hands over the raw
configuration. -/
theorem CompileModel_drops_device_config :
    contains "CPU" "NPU" = false ∧
    rawConfig.keys = ["PERFORMANCE_HINT"] ∧
    (CompileModel npuOptions (some kvAxes) "CPU" rawConfig).map
        (fun out => out.exe.obj.config.keys) = some [] ∧
    (CompileModelFromString "CPU" rawConfig).obj.config.keys = ["PERFORMANCE_HINT"] := by
  decide

/-- On a device other than "NPU", `StartAsync` only sets "beam_idx" and runs. -/
theorem StartAsync_other_device (fwd : Slots → List VariableState → List VariableState)
    (r : OVInferRequest) (h : r.device ≠ "NPU") :
    StartAsync fwd r
      = (r.ovInfReq.set_tensor "beam_idx" beam_idx).map
          (fun q => { r with ovInfReq := q.run fwd }) := by
  unfold StartAsync
  cases hq : r.ovInfReq.set_tensor "beam_idx" beam_idx with
  | none => rfl
  | some q => simp [h]

/-- C10. The test of the request (`device == "NPU"`) is narrower than the test of
`CompileModel` (`hw_target.find("NPU") != npos`): an identifier equal to "NPU"
contains "NPU", and "NPU" gets the descriptor; "NPU.0" contains "NPU" and is not
equal to it: `CompileModel` gives it the descriptor `(1024, 128)` and the prefill
option, and a request with that device keeps its shadow buffers untouched in
`StartAsync` and rewinds through the engine states. -/
theorem fixed_shape_test_narrower :
    (∀ device : String, device = "NPU" → contains device "NPU" = true) ∧
    (CompileModel npuOptions (some kvAxes) "NPU" []).map (fun out => out.kv_desc)
      = some (some { max_prompt_len := 1024, min_response_len := 128 }) ∧
    (contains "NPU.0" "NPU" = true ∧ "NPU.0" ≠ "NPU") ∧
    npu0Outcome.map (fun out => (out.kv_desc, out.exe.device,
        out.exe.obj.config.keys.contains "++NPUW_LLM_PREFILL_CONFIG"))
      = some (some { max_prompt_len := 1024, min_response_len := 128 }, "NPU.0", true) ∧
    npu0Request.map (fun r => (r.device, r.cached_input_ids, r.cached_position_ids))
      = some ("NPU.0", [], []) ∧
    (∀ (fwd : Slots → List VariableState → List VariableState) (r : OVInferRequest),
      r.device = "NPU.0" →
      StartAsync fwd r = (r.ovInfReq.set_tensor "beam_idx" beam_idx).map
        (fun q => { r with ovInfReq := q.run fwd })) ∧
    (∀ (r : OVInferRequest) (index : Nat), r.device = "NPU.0" →
      RewindKVCache r index =
        if index = 0 then some { r with ovInfReq := r.ovInfReq.reset_state }
        else (trimStates index r.ovInfReq.states).map
          (fun states => { r with ovInfReq := { r.ovInfReq with states := states } })) ∧
    (npu0Request.bind (fun r => asyncStep r [101, 102, 103] [0, 1, 2])).map
        (fun r => (r.cached_input_ids, r.cached_position_ids,
          r.ovInfReq.submitted.find "input_ids"))
      = some ([], [], some { element_type := ElementType.i64, shape := [1, 3],
                             data := [101, 102, 103] }) ∧
    (npu0Request.bind (fun r => RewindKVCache r 2)).map
        (fun r => (r.cached_input_ids, r.cached_position_ids,
          r.ovInfReq.states.map (fun st => st.state)))
      = some ([], [], [{ element_type := ElementType.f32, shape := [1, 2, 2, 2],
                         data := [0, 1, 2, 3, 6, 7, 8, 9] }]) := by
  refine ⟨?_, rfl, by decide, rfl, rfl, ?_, ?_, rfl, rfl⟩
  · intro device h
    subst h
    decide
  · intro fwd r h
    exact StartAsync_other_device fwd r (by rw [h]; decide)
  · intro r index h
    have hne : r.device ≠ "NPU" := by rw [h]; decide
    simp only [RewindKVCache, if_neg hne]

end openvino_ep
end onnxruntime
